import Mathlib

/-!
Shallow embedding of the ADAS_LITE traffic-sign detection core
(`traffic_sign_detector.py`, class `TrafficSignDetector`) and proofs of the
specification's claims about it.

Modelling conventions:
* Python floats are modelled as rationals (`ℚ`); all operations the claims
  concern (comparisons, maximum, sorting, exact division) are order- and
  field-theoretic, so `ℚ` is a faithful carrier.
* `np.argmax` returns the index of the first occurrence of the maximum.
* `np.argsort` (default `kind='quicksort'`, documented as not stable, so the
  order among tied scores is implementation-defined) is modelled as one fixed
  ascending-by-score sort of the index range; all theorems that touch it use
  only tie-order-insensitive properties (sortedness by score, permutation of
  the range).
* Python dictionaries (the result records) are modelled as association lists
  of JSON-like values, so that presence and absence of a key are
  distinguishable (the error records omit keys rather than set them to null).
* A body of code that can raise is modelled as an `Except` value supplied by
  the environment; `detect_sign`'s `try/except` becomes a total `match`.
-/

namespace AdasLite

/-- The GTSRB class catalogue `TrafficSignDetector.LABELS`: 43 labels,
index-addressed. -/
def LABELS : List String := [
  "Speed limit (20km/h)", "Speed limit (30km/h)", "Speed limit (50km/h)",
  "Speed limit (60km/h)", "Speed limit (70km/h)", "Speed limit (80km/h)",
  "End of speed limit (80km/h)", "Speed limit (100km/h)",
  "Speed limit (120km/h)", "No passing", "No passing veh over 3.5 tons",
  "Right-of-way at intersection", "Priority road", "Yield", "Stop",
  "No vehicles", "Veh > 3.5 tons prohibited", "No entry", "General caution",
  "Dangerous curve left", "Dangerous curve right", "Double curve",
  "Bumpy road", "Slippery road", "Road narrows on the right", "Road work",
  "Traffic signals", "Pedestrians", "Children crossing", "Bicycles crossing",
  "Beware of ice/snow", "Wild animals crossing", "End speed + passing limits",
  "Turn right ahead", "Turn left ahead", "Ahead only", "Go straight or right",
  "Go straight or left", "Keep right", "Keep left", "Roundabout mandatory",
  "End of no passing", "End no passing veh > 3.5 tons"]

/-- Fallback label for out-of-range lookups (never reached on 43-long input). -/
def defaultLabel : String := ""

/-- `float(np.max(v))` on the score vector: fold of the binary maximum over
the list (0 on the empty list, which a length-43 vector never is). -/
def listMax : List ℚ → ℚ
  | [] => 0
  | x :: xs => xs.foldl max x

/-- `np.argmax(v)`: the index of the first occurrence of the maximum value. -/
def argmax (s : List ℚ) : ℕ := s.indexOf (listMax s)

/-- The comparison used to model `np.argsort`: index `i` sorts before index
`j` when its score is strictly smaller, with equal scores ordered by index.
The index clause only serves to make the order total; see `argsort` for what
the source does and does not determine about the order of tied indices. -/
def lexLe (s : List ℚ) (i j : ℕ) : Prop :=
  s.getD i 0 < s.getD j 0 ∨ (s.getD i 0 = s.getD j 0 ∧ i ≤ j)

instance (s : List ℚ) : DecidableRel (lexLe s) := fun i j => by
  unfold lexLe; infer_instance

instance (s : List ℚ) : IsTotal ℕ (lexLe s) where
  total i j := by
    unfold lexLe
    rcases lt_trichotomy (s.getD i 0) (s.getD j 0) with h | h | h
    · exact Or.inl (Or.inl h)
    · rcases Nat.le_total i j with hij | hij
      · exact Or.inl (Or.inr ⟨h, hij⟩)
      · exact Or.inr (Or.inr ⟨h.symm, hij⟩)
    · exact Or.inr (Or.inl h)

instance (s : List ℚ) : IsTrans ℕ (lexLe s) where
  trans i j k hij hjk := by
    unfold lexLe at *
    rcases hij with h₁ | ⟨e₁, l₁⟩
    · rcases hjk with h₂ | ⟨e₂, _⟩
      · exact Or.inl (h₁.trans h₂)
      · exact Or.inl (e₂ ▸ h₁)
    · rcases hjk with h₂ | ⟨e₂, l₂⟩
      · exact Or.inl (e₁ ▸ h₂)
      · exact Or.inr ⟨e₁.trans e₂, l₁.trans l₂⟩

/-- `np.argsort(v)` over the index range `0..len(v)-1`: an ascending sort of
the indices by score. The source calls `np.argsort` with its default
`kind='quicksort'`, which numpy documents as NOT stable: the relative order
of indices with equal scores is implementation-defined and not determined by
the source. This model fixes one total order (`lexLe`) to stay executable;
every theorem below that involves `argsort` is insensitive to that choice —
it relies only on the sorted-by-score and permutation-of-the-range
properties, which hold for every correct argsort whatever its tie order. -/
def argsort (s : List ℚ) : List ℕ :=
  List.insertionSort (lexLe s) (List.range s.length)

/-- `np.argsort(v)[-3:][::-1]`: the (up to) three highest-scoring indices,
highest first. -/
def topIndices (s : List ℚ) : List ℕ :=
  ((argsort s).drop ((argsort s).length - 3)).reverse

/-- One detection entry: `{class_id, label, confidence}`. -/
structure Detection where
  class_id : ℕ
  label : String
  confidence : ℚ
  deriving DecidableEq, Repr

/-- The entry built for index `i` of the score vector. -/
def mkDetection (s : List ℚ) (i : ℕ) : Detection :=
  { class_id := i, label := LABELS.getD i defaultLabel, confidence := s.getD i 0 }

/-- The `top_predictions` loop of `detect_sign`: walk the top three indices
in descending score order and keep those whose score is strictly above the
threshold. -/
def topPredictions (s : List ℚ) (t : ℚ) : List Detection :=
  ((topIndices s).filter (fun i => decide (t < s.getD i 0))).map (mkDetection s)

/-- `detected = confidence > self.confidence_threshold` (strict). -/
def detected (s : List ℚ) (t : ℚ) : Bool := decide (t < listMax s)

/-- The `primary_detection` field: the argmax entry when the maximum score is
strictly above the threshold, otherwise `None`. -/
def primaryDetection (s : List ℚ) (t : ℚ) : Option Detection :=
  if t < listMax s then
    some { class_id := argmax s, label := LABELS.getD (argmax s) defaultLabel,
           confidence := listMax s }
  else none

/-! ### JSON-like result records (Python dicts with key presence) -/

/-- JSON-like values: what a `detect_sign` result record is made of. -/
inductive J where
  | null : J
  | bool : Bool → J
  | num : ℚ → J
  | str : String → J
  | arr : List J → J
  | obj : List (String × J) → J

/-- Dictionary lookup: the value at `k` of an object, `none` when the key is
absent or the value is not an object. -/
def J.getKey : J → String → Option J
  | .obj kvs, k => (kvs.find? (fun kv => kv.fst == k)).map Prod.snd
  | _, _ => none

/-- `k in d` for a record. -/
def J.hasKey (j : J) (k : String) : Bool := (j.getKey k).isSome

/-- The key list of a record (empty for non-objects). -/
def J.keys : J → List String
  | .obj kvs => kvs.map Prod.fst
  | _ => []

/-- Python truthiness of a JSON-like value (`if r.get(...)`). -/
def truthy : J → Bool
  | .null => false
  | .bool b => b
  | .num q => decide (q ≠ 0)
  | .str s => !s.isEmpty
  | .arr xs => !xs.isEmpty
  | .obj kvs => !kvs.isEmpty

/-- Numeric reading of a JSON-like value (`np.mean` over stored numbers). -/
def J.toNum : J → ℚ
  | .num q => q
  | .bool b => if b then 1 else 0
  | _ => 0

/-! Key names of the wire contract. -/

def kImagePath : String := "image_path"

def kTimestamp : String := "timestamp"

def kError : String := "error"

def kDetected : String := "detected"

def kInferenceTimeMs : String := "inference_time_ms"

def kPrimaryDetection : String := "primary_detection"

def kTopPredictions : String := "top_predictions"

def kModelInfo : String := "model_info"

def kModelPath : String := "model_path"

def kConfidenceThreshold : String := "confidence_threshold"

def kInputShape : String := "input_shape"

def kTotalClasses : String := "total_classes"

def kClassId : String := "class_id"

def kLabel : String := "label"

def kConfidence : String := "confidence"

/-! ### Rounding (Python's `round(x, 2)`, half-to-even) -/

/-- Executable floor of a rational. -/
def floorQ (x : ℚ) : ℤ := Int.fdiv x.num (x.den : ℤ)

/-- Python's `round` to an integer: nearest, ties to even. -/
def roundHalfEven (x : ℚ) : ℤ :=
  let f := floorQ x
  let r := x - (f : ℚ)
  if r < 1 / 2 then f
  else if 1 / 2 < r then f + 1
  else if f % 2 = 0 then f else f + 1

/-- `round(x, 2)`. -/
def round2 (x : ℚ) : ℚ := (roundHalfEven (x * 100) : ℚ) / 100

/-! ### detect_sign / detect_batch -/

/-- The detector's configuration: model path, threshold and the input shape
declared by the loaded model, as `detect_sign` stamps them into `model_info`. -/
structure ModelConfig where
  model_path : String
  confidence_threshold : ℚ
  input_shape : List ℕ

/-- A detection entry serialized into the record. -/
def detectionJ (d : Detection) : J :=
  J.obj [(kClassId, J.num (d.class_id : ℚ)), (kLabel, J.str d.label),
         (kConfidence, J.num d.confidence)]

/-- `TrafficSignDetector.detect_sign`. The preprocessing + inference part of
the body can raise; the environment supplies it as `run`: either an error
message or the score vector together with the measured inference time in
seconds. The `try/except` of the source becomes the total `match`: every
call returns exactly one record. -/
def detect_sign (cfg : ModelConfig) (path ts : String)
    (run : Except String (List ℚ × ℚ)) : J :=
  match run with
  | .error msg =>
      J.obj [(kImagePath, J.str path), (kTimestamp, J.str ts),
             (kError, J.str msg), (kDetected, J.bool false)]
  | .ok (scores, secs) =>
      J.obj [(kImagePath, J.str path), (kTimestamp, J.str ts),
             (kInferenceTimeMs, J.num (round2 (secs * 1000))),
             (kDetected, J.bool (detected scores cfg.confidence_threshold)),
             (kPrimaryDetection,
               match primaryDetection scores cfg.confidence_threshold with
               | some d => detectionJ d
               | none => J.null),
             (kTopPredictions,
               J.arr ((topPredictions scores cfg.confidence_threshold).map detectionJ)),
             (kModelInfo,
               J.obj [(kModelPath, J.str cfg.model_path),
                      (kConfidenceThreshold, J.num cfg.confidence_threshold),
                      (kInputShape, J.arr (cfg.input_shape.map (fun n => J.num (n : ℚ)))),
                      (kTotalClasses, J.num (LABELS.length : ℚ))])]

/-- `TrafficSignDetector.detect_batch`: one `detect_sign` per path, in input
order; `ts` and `run` describe what the environment (clock, file system,
interpreter) yields for each path. -/
def detect_batch (cfg : ModelConfig) (ts : String → String)
    (run : String → Except String (List ℚ × ℚ)) (paths : List String) : List J :=
  paths.map (fun p => detect_sign cfg p (ts p) (run p))

/-! ### The summary block of save_results_to_json -/

/-- The `detection_summary` fields computed by `save_results_to_json`. -/
structure Summary where
  total_images : ℕ
  successful_detections : ℕ
  failed_detections : ℕ
  success_rate : ℚ
  average_inference_time_ms : ℚ

/-- `r.get('detected', False)`. -/
def detectedVal (r : J) : J := (r.getKey kDetected).getD (J.bool false)

/-- The summary statistics of `save_results_to_json`, over arbitrary result
records. -/
def summarize (results : List J) : Summary :=
  let total := results.length
  let succOK := results.countP (fun r => truthy (detectedVal r))
  let times := (results.filterMap (fun r => r.getKey kInferenceTimeMs)).map J.toNum
  { total_images := total
    successful_detections := succOK
    failed_detections := total - succOK
    success_rate := if 0 < total then round2 ((succOK : ℚ) / (total : ℚ) * 100) else 0
    average_inference_time_ms :=
      round2 (if times.isEmpty then 0 else times.sum / (times.length : ℚ)) }

/-! ### preprocess_image -/

/-- One sample of the normalization step: `float32(v) / 255.0`. -/
def pixScale (v : ℕ) : ℚ := (v : ℚ) / 255

/-- `TrafficSignDetector.preprocess_image` after the external decode /
convert("RGB") / resize steps: the resized image arrives as a
rows × columns × channels grid of byte values; the function normalizes every
sample by 255 and prepends the batch dimension. -/
def preprocess_image (img : List (List (List ℕ))) : List (List (List (List ℚ))) :=
  [img.map (fun row => row.map (fun px => px.map pixScale))]

/-- Shape of a rows × columns × channels grid. -/
def hasShape3 (img : List (List (List ℕ))) (h w c : ℕ) : Prop :=
  img.length = h ∧ ∀ row ∈ img, row.length = w ∧ ∀ px ∈ row, px.length = c

/-! ### _load_model -/

/-- Declared shape and dtype of one interpreter tensor. -/
structure TensorDetails where
  shape : List ℕ
  dtype : String
  deriving DecidableEq

/-- What `get_input_details()` / `get_output_details()` expose. -/
structure ModelHandle where
  input_details : List TensorDetails
  output_details : List TensorDetails
  deriving DecidableEq

/-- The tensor shape the specification's contract expects on input. -/
def expectedInputShape : List ℕ := [1, 224, 224, 3]

/-- The output vector length the specification's contract expects. -/
def expectedOutputShape : List ℕ := [1, 43]

/-- `TrafficSignDetector._load_model`: create the interpreter, allocate
tensors, read the tensor details, and re-raise any loading failure. The
environment's load outcome arrives as `runtimeLoad`. The source inspects the
declared shapes only to log them: no validation is applied to them. -/
def load_model (runtimeLoad : Except String ModelHandle) : Except String ModelHandle :=
  match runtimeLoad with
  | .error e => .error e
  | .ok h => .ok h

/-! ### Helper lemmas: the fold maximum -/

theorem acc_le_foldl_max (l : List ℚ) (a : ℚ) : a ≤ l.foldl max a := by
  induction l generalizing a with
  | nil => simp
  | cons x xs ih => exact le_trans (le_max_left a x) (ih (max a x))

theorem mem_le_foldl_max (l : List ℚ) (a x : ℚ) (hx : x ∈ l) : x ≤ l.foldl max a := by
  induction l generalizing a with
  | nil => cases hx
  | cons y ys ih =>
    rcases List.mem_cons.mp hx with rfl | hmem
    · exact le_trans (le_max_right a x) (acc_le_foldl_max ys (max a x))
    · exact ih (max a y) hmem

theorem foldl_max_mem (l : List ℚ) (a : ℚ) : l.foldl max a = a ∨ l.foldl max a ∈ l := by
  induction l generalizing a with
  | nil => exact Or.inl rfl
  | cons x xs ih =>
    rcases ih (max a x) with h | h
    · rcases max_choice a x with hm | hm
      · exact Or.inl (by rw [List.foldl_cons, h, hm])
      · exact Or.inr (by rw [List.foldl_cons, h, hm]; exact List.mem_cons_self x xs)
    · exact Or.inr (List.mem_cons_of_mem x h)

theorem listMax_mem {s : List ℚ} (h : s ≠ []) : listMax s ∈ s := by
  cases s with
  | nil => exact absurd rfl h
  | cons x xs =>
    rcases foldl_max_mem xs x with hm | hm
    · rw [listMax, hm]; exact List.mem_cons_self x xs
    · exact List.mem_cons_of_mem x hm

theorem le_listMax {s : List ℚ} {x : ℚ} (hx : x ∈ s) : x ≤ listMax s := by
  cases s with
  | nil => cases hx
  | cons y ys =>
    rcases List.mem_cons.mp hx with rfl | hmem
    · exact acc_le_foldl_max ys x
    · exact mem_le_foldl_max ys y x hmem

theorem getD_le_listMax {s : List ℚ} {i : ℕ} (hi : i < s.length) :
    s.getD i 0 ≤ listMax s := by
  rw [List.getD_eq_getElem s 0 hi]
  exact le_listMax (List.getElem_mem hi)

/-! ### Helper lemmas: argmax (first index attaining the maximum) -/

theorem indexOf_min (s : List ℚ) (v : ℚ) :
    ∀ i, i < s.indexOf v → s.getD i 0 ≠ v := by
  induction s with
  | nil =>
    intro i hi
    rw [List.indexOf_nil] at hi
    exact absurd hi (Nat.not_lt_zero i)
  | cons a as ih =>
    intro i hi
    rw [List.indexOf_cons] at hi
    by_cases h : a == v
    · rw [h] at hi; simp at hi
    · rw [Bool.not_eq_true] at h
      rw [h] at hi
      simp only [cond_false] at hi
      cases i with
      | zero =>
        simpa [List.getD_cons_zero] using beq_eq_false_iff_ne.mp h
      | succ n =>
        rw [List.getD_cons_succ]
        exact ih n (Nat.lt_of_succ_lt_succ hi)

theorem argmax_lt_length {s : List ℚ} (h : s ≠ []) : argmax s < s.length :=
  List.indexOf_lt_length.mpr (listMax_mem h)

theorem getD_argmax {s : List ℚ} (h : s ≠ []) : s.getD (argmax s) 0 = listMax s := by
  have hlt := argmax_lt_length h
  rw [List.getD_eq_getElem s 0 hlt]
  exact List.getElem_indexOf hlt

theorem argmax_first {s : List ℚ} :
    ∀ i, i < argmax s → s.getD i 0 ≠ listMax s :=
  indexOf_min s (listMax s)

/-! ### Helper lemmas: argsort and the top three indices -/

theorem argsort_perm (s : List ℚ) : (argsort s).Perm (List.range s.length) :=
  List.perm_insertionSort (lexLe s) (List.range s.length)

theorem argsort_sorted (s : List ℚ) : List.Sorted (lexLe s) (argsort s) :=
  List.sorted_insertionSort (lexLe s) (List.range s.length)

theorem mem_argsort {s : List ℚ} {i : ℕ} : i ∈ argsort s ↔ i < s.length := by
  rw [(argsort_perm s).mem_iff, List.mem_range]

theorem argsort_length (s : List ℚ) : (argsort s).length = s.length := by
  rw [(argsort_perm s).length_eq, List.length_range]

theorem topIndices_length_le (s : List ℚ) : (topIndices s).length ≤ 3 := by
  unfold topIndices
  rw [List.length_reverse, List.length_drop]
  omega

theorem mem_topIndices {s : List ℚ} {i : ℕ} (hi : i ∈ topIndices s) :
    i < s.length := by
  unfold topIndices at hi
  rw [List.mem_reverse] at hi
  exact mem_argsort.mp ((List.drop_sublist _ _).mem hi)

theorem exists_max_topIndices {s : List ℚ} (h : s ≠ []) :
    ∃ i ∈ topIndices s, s.getD i 0 = listMax s := by
  have hn : 0 < s.length := List.length_pos.mpr h
  -- an index attaining the maximum
  obtain ⟨jm, hjm, hjv⟩ := List.mem_iff_getElem.mp (listMax_mem h)
  have hjm' : jm ∈ argsort s := mem_argsort.mpr hjm
  have hgetjm : s.getD jm 0 = listMax s := by
    rw [List.getD_eq_getElem s 0 hjm]; exact hjv
  -- the dropped tail is nonempty
  have hdroplen : 0 < ((argsort s).drop ((argsort s).length - 3)).length := by
    rw [List.length_drop, argsort_length]
    omega
  have hsplit := List.take_append_drop ((argsort s).length - 3) (argsort s)
  rcases List.mem_append.mp (by rw [hsplit]; exact hjm') with htake | hdrop
  · -- jm sorts before the whole tail; any tail element also attains the maximum
    have hpw : List.Pairwise (lexLe s)
        (List.take ((argsort s).length - 3) (argsort s) ++
          List.drop ((argsort s).length - 3) (argsort s)) := by
      rw [hsplit]; exact argsort_sorted s
    obtain ⟨x, hx⟩ := List.exists_mem_of_length_pos hdroplen
    have hrel : lexLe s jm x := (List.pairwise_append.mp hpw).2.2 jm htake x hx
    have hxlen : x < s.length := mem_argsort.mp ((List.drop_sublist _ _).mem hx)
    have hxle : s.getD x 0 ≤ listMax s := getD_le_listMax hxlen
    have hxge : listMax s ≤ s.getD x 0 := by
      rcases hrel with hlt | ⟨heq, _⟩
      · rw [← hgetjm]; exact le_of_lt hlt
      · rw [← hgetjm, heq]
    refine ⟨x, ?_, le_antisymm hxle hxge⟩
    unfold topIndices
    rw [List.mem_reverse]
    exact hx
  · refine ⟨jm, ?_, hgetjm⟩
    unfold topIndices
    rw [List.mem_reverse]
    exact hdrop

/-! ### Helper lemmas: topPredictions -/

theorem mem_topPredictions {s : List ℚ} {t : ℚ} {d : Detection}
    (hd : d ∈ topPredictions s t) :
    d.class_id < s.length ∧ d.confidence = s.getD d.class_id 0 ∧
      t < d.confidence ∧ d.label = LABELS.getD d.class_id defaultLabel := by
  unfold topPredictions at hd
  obtain ⟨i, hi, rfl⟩ := List.mem_map.mp hd
  obtain ⟨hmem, hpass⟩ := List.mem_filter.mp hi
  refine ⟨mem_topIndices hmem, rfl, of_decide_eq_true hpass, rfl⟩

theorem topPredictions_ne_nil {s : List ℚ} {t : ℚ} (h43 : s ≠ [])
    (hd : detected s t = true) : topPredictions s t ≠ [] := by
  have ht : t < listMax s := of_decide_eq_true hd
  obtain ⟨i, hi, hiv⟩ := exists_max_topIndices h43
  intro hnil
  unfold topPredictions at hnil
  rw [List.map_eq_nil_iff] at hnil
  have hfil := List.filter_eq_nil_iff.mp hnil i hi
  rw [hiv] at hfil
  simp only [decide_eq_true_eq] at hfil
  exact hfil ht

theorem topPredictions_nil_of_not_detected {s : List ℚ} {t : ℚ}
    (hd : detected s t = false) : topPredictions s t = [] := by
  have ht : ¬ t < listMax s := of_decide_eq_false hd
  unfold topPredictions
  rw [List.map_eq_nil_iff, List.filter_eq_nil_iff]
  intro i hi
  simp only [decide_eq_true_eq]
  intro hcontra
  exact ht (lt_of_lt_of_le hcontra (getD_le_listMax (mem_topIndices hi)))

theorem detected_of_topPredictions_ne_nil {s : List ℚ} {t : ℚ}
    (h : topPredictions s t ≠ []) : detected s t = true := by
  by_contra hfalse
  rw [Bool.not_eq_true] at hfalse
  exact h (topPredictions_nil_of_not_detected hfalse)

/-! ### Helper lemmas: records and the summary -/

/-- A value that is a Python `bool`. -/
def isBoolJ : J → Bool
  | .bool _ => true
  | _ => false

/-- The value is the Python constant `True`. -/
def isJTrue : J → Bool
  | .bool true => true
  | _ => false

theorem truthy_eq_isJTrue {v : J} (hv : isBoolJ v = true) : truthy v = isJTrue v := by
  cases v with
  | bool b => cases b <;> rfl
  | null => cases hv
  | num q => cases hv
  | str s => cases hv
  | arr xs => cases hv
  | obj kvs => cases hv

theorem detect_sign_obj (cfg : ModelConfig) (path ts : String)
    (run : Except String (List ℚ × ℚ)) :
    ∃ kvs, detect_sign cfg path ts run = J.obj kvs ∧
      J.getKey (detect_sign cfg path ts run) kImagePath = some (J.str path) := by
  cases run with
  | error msg => exact ⟨_, rfl, rfl⟩
  | ok pair => exact ⟨_, rfl, rfl⟩

theorem round2_zero : round2 0 = 0 := by
  have h0 : roundHalfEven 0 = 0 := by
    unfold roundHalfEven floorQ
    norm_num
  unfold round2
  rw [show (0 : ℚ) * 100 = 0 by ring, h0]
  norm_num

/-! ### Concrete inputs used by witnesses and counterexamples -/

/-- A 43-long score vector: class 14 at score 9, everything else 0. -/
def wScores : List ℚ := List.replicate 14 0 ++ 9 :: List.replicate 28 0

/-- Three result records: two detected, one with an inference time only. -/
def wResults : List J :=
  [J.obj [(kDetected, J.bool true)],
   J.obj [(kDetected, J.bool false), (kInferenceTimeMs, J.num 4)],
   J.obj [(kDetected, J.bool true), (kInferenceTimeMs, J.num 2)]]

/-- A uniform mid-gray 224 × 224 × 3 resized image. -/
def wImg : List (List (List ℕ)) :=
  List.replicate 224 (List.replicate 224 (List.replicate 3 128))

theorem wImg_shape : hasShape3 wImg 224 224 3 := by
  unfold hasShape3 wImg
  refine ⟨List.length_replicate _ _, ?_⟩
  intro row hrow
  rw [List.mem_replicate] at hrow
  rw [hrow.2]
  refine ⟨List.length_replicate _ _, ?_⟩
  intro px hpx
  rw [List.mem_replicate] at hpx
  rw [hpx.2]
  exact List.length_replicate _ _

theorem wImg_bound : ∀ row ∈ wImg, ∀ px ∈ row, ∀ v ∈ px, v ≤ 255 := by
  intro row hrow px hpx v hv
  unfold wImg at hrow
  rw [List.mem_replicate] at hrow
  rw [hrow.2] at hpx
  rw [List.mem_replicate] at hpx
  rw [hpx.2] at hv
  rw [List.mem_replicate] at hv
  rw [hv.2]
  exact Nat.le_of_lt (by omega)

/-- A loadable model whose declared shapes violate the expected contract. -/
def badShapeHandle : ModelHandle :=
  { input_details := [{ shape := [1, 100, 100, 3], dtype := "float32" }],
    output_details := [{ shape := [1, 10], dtype := "float32" }] }

/-! ### Claim theorems -/

/-- C1: on a 43-long score vector, `detected` holds exactly when the maximum
score is strictly greater than the threshold (a score equal to the threshold
is not a detection); when detected, the primary detection carries the maximum
as its confidence, the first index attaining that maximum as its class id,
and the catalogue label at that id; when not detected the primary detection
is `none`, not a placeholder. -/
theorem C1_decision_policy (s : List ℚ) (t : ℚ) (h43 : s.length = 43) :
    (detected s t = true ↔ ∃ m ∈ s, (∀ x ∈ s, x ≤ m) ∧ t < m)
    ∧ (∀ d, primaryDetection s t = some d →
        d.confidence ∈ s ∧ (∀ x ∈ s, x ≤ d.confidence) ∧
          s.getD d.class_id 0 = d.confidence ∧
          (∀ i, i < d.class_id → s.getD i 0 ≠ d.confidence) ∧
          d.class_id < 43 ∧ d.label = LABELS.getD d.class_id defaultLabel)
    ∧ (detected s t = true → primaryDetection s t ≠ none)
    ∧ (detected s t = false → primaryDetection s t = none) := by
  have hne : s ≠ [] := by
    intro he; rw [he] at h43; cases h43
  refine ⟨?_, ?_, ?_, ?_⟩
  · constructor
    · intro hd
      exact ⟨listMax s, listMax_mem hne, fun x hx => le_listMax hx, of_decide_eq_true hd⟩
    · rintro ⟨m, hm, _, htm⟩
      exact decide_eq_true (lt_of_lt_of_le htm (le_listMax hm))
  · intro d hd
    unfold primaryDetection at hd
    by_cases hc : t < listMax s
    · rw [if_pos hc] at hd
      obtain rfl := Option.some.inj hd
      refine ⟨listMax_mem hne, fun x hx => le_listMax hx, getD_argmax hne, ?_, ?_, rfl⟩
      · exact fun i hi => argmax_first i hi
      · rw [← h43]; exact argmax_lt_length hne
    · rw [if_neg hc] at hd
      cases hd
  · intro hd
    have hc : t < listMax s := of_decide_eq_true hd
    unfold primaryDetection
    rw [if_pos hc]
    exact Option.some_ne_none _
  · intro hd
    have hc : ¬ t < listMax s := of_decide_eq_false hd
    unfold primaryDetection
    rw [if_neg hc]

/-- C1 witness: the decision policy at a concrete 43-long vector (class 14 at
score 9, the rest 0) and threshold 3. -/
theorem C1_decision_policy_witness :
    (detected wScores 3 = true ↔ ∃ m ∈ wScores, (∀ x ∈ wScores, x ≤ m) ∧ 3 < m)
    ∧ (∀ d, primaryDetection wScores 3 = some d →
        d.confidence ∈ wScores ∧ (∀ x ∈ wScores, x ≤ d.confidence) ∧
          wScores.getD d.class_id 0 = d.confidence ∧
          (∀ i, i < d.class_id → wScores.getD i 0 ≠ d.confidence) ∧
          d.class_id < 43 ∧ d.label = LABELS.getD d.class_id defaultLabel)
    ∧ (detected wScores 3 = true → primaryDetection wScores 3 ≠ none)
    ∧ (detected wScores 3 = false → primaryDetection wScores 3 = none) :=
  C1_decision_policy wScores 3 (by decide)

/-- C3: `detect_sign` is total — every call returns exactly one record, an
object carrying the input path — and on a failing preprocessing/inference run
the record has `detected = false`, the error message under `error`, and no
`primary_detection` and no `top_predictions` keys at all. -/
theorem C3_never_raises (cfg : ModelConfig) (path ts msg : String) :
    (∀ run : Except String (List ℚ × ℚ),
      ∃ kvs, detect_sign cfg path ts run = J.obj kvs ∧
        J.getKey (detect_sign cfg path ts run) kImagePath = some (J.str path))
    ∧ J.getKey (detect_sign cfg path ts (Except.error msg)) kDetected = some (J.bool false)
    ∧ J.getKey (detect_sign cfg path ts (Except.error msg)) kError = some (J.str msg)
    ∧ J.hasKey (detect_sign cfg path ts (Except.error msg)) kPrimaryDetection = false
    ∧ J.hasKey (detect_sign cfg path ts (Except.error msg)) kTopPredictions = false := by
  exact ⟨fun run => detect_sign_obj cfg path ts run, rfl, rfl, rfl, rfl⟩

/-- C6 counterexample: no score vector of length 43 and threshold make
`detected` true while `top_predictions` is empty — the argmax entry is among
the top three indices and passes the strict threshold test whenever
`detected` does, so the claimed possibility never occurs. -/
theorem C6_empty_top_counterexample :
    ¬ ∃ (s : List ℚ) (t : ℚ),
        s.length = 43 ∧ detected s t = true ∧ topPredictions s t = [] := by
  rintro ⟨s, t, h43, hd, hnil⟩
  have hne : s ≠ [] := by
    intro he; rw [he] at h43; cases h43
  exact topPredictions_ne_nil hne hd hnil

/-- C6 (amended): `top_predictions` may contain 1, 2 or 3 entries but never 0
when `detected` is true — it is empty exactly when `detected` is false,
because the argmax entry always appears once the maximum beats the
threshold. -/
theorem C6_empty_iff_not_detected (s : List ℚ) (t : ℚ) (h43 : s.length = 43) :
    topPredictions s t = [] ↔ detected s t = false := by
  have hne : s ≠ [] := by
    intro he; rw [he] at h43; cases h43
  constructor
  · intro hnil
    by_contra hcontra
    rw [Bool.not_eq_false] at hcontra
    exact topPredictions_ne_nil hne hcontra hnil
  · exact topPredictions_nil_of_not_detected

/-- C6 witness: the equivalence at the concrete vector with class 14 at score
9 and threshold 3. -/
theorem C6_empty_iff_not_detected_witness :
    topPredictions wScores 3 = [] ↔ detected wScores 3 = false :=
  C6_empty_iff_not_detected wScores 3 (by decide)

/-- C7: on a 43-long score vector, a non-empty `top_predictions` forces
`detected` — every listed entry's score is strictly above the threshold and
at most the maximum, so the maximum is strictly above the threshold too. -/
theorem C7_nonempty_implies_detected (s : List ℚ) (t : ℚ) (h43 : s.length = 43)
    (hne : topPredictions s t ≠ []) : detected s t = true :=
  detected_of_topPredictions_ne_nil hne

/-- C7 witness: at the concrete vector with class 14 at score 9 and threshold
3 the list is non-empty and `detected` holds. -/
theorem C7_nonempty_implies_detected_witness : detected wScores 3 = true :=
  C7_nonempty_implies_detected wScores 3 (by decide) (by decide)

/-- C4: `detect_batch` returns one record per input path, in input order: the
output length equals the input length, the record at position `i` is
`detect_sign` of the path at position `i`, and that record carries the path
under `image_path`. One item's failure never aborts the batch: `detect_sign`
is total, so a failing path still contributes its (error) record and the map
continues over the rest. -/
theorem C4_batch_order (cfg : ModelConfig) (ts : String → String)
    (run : String → Except String (List ℚ × ℚ)) (paths : List String) :
    (detect_batch cfg ts run paths).length = paths.length
    ∧ (∀ i : ℕ, (detect_batch cfg ts run paths)[i]? =
        Option.map (fun p => detect_sign cfg p (ts p) (run p)) paths[i]?)
    ∧ (∀ (i : ℕ) (p : String), paths[i]? = some p →
        Option.bind (detect_batch cfg ts run paths)[i]?
          (fun r => J.getKey r kImagePath) = some (J.str p)) := by
  refine ⟨?_, ?_, ?_⟩
  · unfold detect_batch
    exact List.length_map _ _
  · intro i
    unfold detect_batch
    exact List.getElem?_map _ _ _
  · intro i p hp
    unfold detect_batch
    rw [List.getElem?_map, hp]
    obtain ⟨kvs, _, hkey⟩ := detect_sign_obj cfg p (ts p) (run p)
    simpa using hkey

/-- C5: the summary block of `save_results_to_json`: `total_images` is the
record count; over records whose `detected` value is a boolean,
`successful_detections` counts those with `detected = True`;
`failed_detections` is the difference; `success_rate` is the rounded
percentage with a zero guard for the empty batch; and the average inference
time is the rounded mean of `inference_time_ms` over exactly the records
carrying that key, 0 when none does. -/
theorem C5_summary (results : List J)
    (hb : ∀ r ∈ results, isBoolJ (detectedVal r) = true) :
    (summarize results).total_images = results.length
    ∧ (summarize results).successful_detections =
        (results.filter (fun r => isJTrue (detectedVal r))).length
    ∧ (summarize results).failed_detections =
        (summarize results).total_images - (summarize results).successful_detections
    ∧ (summarize results).success_rate =
        (if 0 < results.length then
          round2 ((((results.filter (fun r => isJTrue (detectedVal r))).length : ℚ) /
            (results.length : ℚ)) * 100)
         else 0)
    ∧ (results.filterMap (fun r => J.getKey r kInferenceTimeMs) = [] →
        (summarize results).average_inference_time_ms = 0)
    ∧ (results.filterMap (fun r => J.getKey r kInferenceTimeMs) ≠ [] →
        (summarize results).average_inference_time_ms =
          round2 (((results.filterMap (fun r => J.getKey r kInferenceTimeMs)).map J.toNum).sum /
            ((results.filterMap (fun r => J.getKey r kInferenceTimeMs)).length : ℚ))) := by
  have hcount : results.countP (fun r => truthy (detectedVal r)) =
      (results.filter (fun r => isJTrue (detectedVal r))).length := by
    rw [← List.countP_eq_length_filter]
    exact List.countP_congr (fun r hr => by rw [truthy_eq_isJTrue (hb r hr)])
  refine ⟨rfl, ?_, rfl, ?_, ?_, ?_⟩
  · simpa [summarize] using hcount
  · simp only [summarize]
    rw [hcount]
  · intro hnil
    simp only [summarize, hnil]
    simpa using round2_zero
  · intro hne
    simp only [summarize]
    rw [if_neg (by simpa [List.isEmpty_iff] using hne)]
    rw [List.length_map]

/-- C5 witness: the summary guarantees at three concrete records, two of them
detected and two carrying timing data. -/
theorem C5_summary_witness :
    (summarize wResults).total_images = wResults.length
    ∧ (summarize wResults).successful_detections =
        (wResults.filter (fun r => isJTrue (detectedVal r))).length
    ∧ (summarize wResults).failed_detections =
        (summarize wResults).total_images - (summarize wResults).successful_detections
    ∧ (summarize wResults).success_rate =
        (if 0 < wResults.length then
          round2 ((((wResults.filter (fun r => isJTrue (detectedVal r))).length : ℚ) /
            (wResults.length : ℚ)) * 100)
         else 0)
    ∧ (wResults.filterMap (fun r => J.getKey r kInferenceTimeMs) = [] →
        (summarize wResults).average_inference_time_ms = 0)
    ∧ (wResults.filterMap (fun r => J.getKey r kInferenceTimeMs) ≠ [] →
        (summarize wResults).average_inference_time_ms =
          round2 (((wResults.filterMap (fun r => J.getKey r kInferenceTimeMs)).map J.toNum).sum /
            ((wResults.filterMap (fun r => J.getKey r kInferenceTimeMs)).length : ℚ))) :=
  C5_summary wResults (by decide)

/-- C8 counterexample: a model that loads successfully but declares shapes
violating the expected contract (input `(1,224,224,3)`, output length 43) is
NOT rejected by `_load_model` — the load returns it unchanged, so loading
does not fail with any shape error. -/
theorem C8_no_shape_validation_counterexample :
    load_model (Except.ok badShapeHandle) = Except.ok badShapeHandle
    ∧ badShapeHandle.input_details.map TensorDetails.shape ≠ [expectedInputShape]
    ∧ badShapeHandle.output_details.map TensorDetails.shape ≠ [expectedOutputShape] := by
  refine ⟨rfl, ?_, ?_⟩
  · decide
  · decide

/-- C8 (amended): `_load_model` performs no shape validation at all: it
propagates the runtime's load outcome unchanged, accepting every successfully
loaded model regardless of its declared tensor shapes; a shape mismatch can
therefore only surface at first inference, not at load time. -/
theorem C8_load_no_validation (r : Except String ModelHandle) :
    load_model r = r ∧ ∀ h : ModelHandle, load_model (Except.ok h) = Except.ok h := by
  refine ⟨?_, fun h => rfl⟩
  cases r with
  | error e => rfl
  | ok h => rfl

/-- C9: `preprocess_image` on a decoded, RGB-converted, resized
224 × 224 × 3 grid of byte samples returns an array of shape
`(1, 224, 224, 3)` whose every sample is the corresponding input sample
divided by 255 and hence lies in `[0, 1]`. -/
theorem C9_preprocess_shape_values (img : List (List (List ℕ)))
    (hs : hasShape3 img 224 224 3)
    (hb : ∀ row ∈ img, ∀ px ∈ row, ∀ v ∈ px, v ≤ 255) :
    ∃ plane, preprocess_image img = [plane]
    ∧ plane.length = 224
    ∧ (∀ row ∈ plane, row.length = 224 ∧ ∀ px ∈ row, px.length = 3)
    ∧ (∀ i j k : ℕ, Option.bind (Option.bind plane[i]? (fun r => r[j]?)) (fun p => p[k]?) =
        Option.map pixScale
          (Option.bind (Option.bind img[i]? (fun r => r[j]?)) (fun p => p[k]?)))
    ∧ (∀ row ∈ plane, ∀ px ∈ row, ∀ q ∈ px, 0 ≤ q ∧ q ≤ 1) := by
  refine ⟨_, rfl, ?_, ?_, ?_, ?_⟩
  · rw [List.length_map]
    exact hs.1
  · intro row hrow
    obtain ⟨row₀, hrow₀, rfl⟩ := List.mem_map.mp hrow
    obtain ⟨hlen, hpx⟩ := hs.2 row₀ hrow₀
    refine ⟨by rw [List.length_map]; exact hlen, ?_⟩
    intro px hpxmem
    obtain ⟨px₀, hpx₀, rfl⟩ := List.mem_map.mp hpxmem
    rw [List.length_map]
    exact hpx px₀ hpx₀
  · intro i j k
    rw [List.getElem?_map]
    cases hi : img[i]? with
    | none => rfl
    | some row =>
      simp only [Option.map_some', Option.some_bind]
      rw [List.getElem?_map]
      cases hj : row[j]? with
      | none => rfl
      | some px =>
        simp only [Option.map_some', Option.some_bind]
        rw [List.getElem?_map]
  · intro row hrow px hpxmem q hq
    obtain ⟨row₀, hrow₀, rfl⟩ := List.mem_map.mp hrow
    obtain ⟨px₀, hpx₀, rfl⟩ := List.mem_map.mp hpxmem
    obtain ⟨v, hv, rfl⟩ := List.mem_map.mp hq
    have hv255 : v ≤ 255 := hb row₀ hrow₀ px₀ hpx₀ v hv
    constructor
    · unfold pixScale
      positivity
    · unfold pixScale
      rw [div_le_one (by norm_num)]
      exact_mod_cast hv255

/-- C9 witness: the preprocessing guarantees at a concrete uniform mid-gray
224 × 224 × 3 image. -/
theorem C9_preprocess_shape_values_witness :
    ∃ plane, preprocess_image wImg = [plane]
    ∧ plane.length = 224
    ∧ (∀ row ∈ plane, row.length = 224 ∧ ∀ px ∈ row, px.length = 3)
    ∧ (∀ i j k : ℕ, Option.bind (Option.bind plane[i]? (fun r => r[j]?)) (fun p => p[k]?) =
        Option.map pixScale
          (Option.bind (Option.bind wImg[i]? (fun r => r[j]?)) (fun p => p[k]?)))
    ∧ (∀ row ∈ plane, ∀ px ∈ row, ∀ q ∈ px, 0 ≤ q ∧ q ≤ 1) :=
  C9_preprocess_shape_values wImg wImg_shape wImg_bound

/-- C10: the record returned for a failing input carries exactly the keys
`image_path`, `timestamp`, `error`, `detected`; the keys `top_predictions`,
`inference_time_ms` and `model_info` (and `primary_detection`) are entirely
absent from error records, while every successful record does carry them. -/
theorem C10_error_record_fields (cfg : ModelConfig) (path ts msg : String) :
    J.keys (detect_sign cfg path ts (Except.error msg)) =
      [kImagePath, kTimestamp, kError, kDetected]
    ∧ J.hasKey (detect_sign cfg path ts (Except.error msg)) kTopPredictions = false
    ∧ J.hasKey (detect_sign cfg path ts (Except.error msg)) kInferenceTimeMs = false
    ∧ J.hasKey (detect_sign cfg path ts (Except.error msg)) kModelInfo = false
    ∧ (∀ pr : List ℚ × ℚ,
        J.hasKey (detect_sign cfg path ts (Except.ok pr)) kTopPredictions = true
        ∧ J.hasKey (detect_sign cfg path ts (Except.ok pr)) kInferenceTimeMs = true
        ∧ J.hasKey (detect_sign cfg path ts (Except.ok pr)) kModelInfo = true) := by
  refine ⟨rfl, rfl, rfl, rfl, ?_⟩
  rintro ⟨scores, secs⟩
  exact ⟨rfl, rfl, rfl⟩

end AdasLite
